import Mathlib

/-!
Verification development for the MileWatcher repository.

The persistence layer (`src/milewatcher/database/database_manager.py`) is a
thin wrapper over an SQLite table `posts`; we embed the table as a list of
rows together with the autoincrement counter, and each manager method as a
function over that state.  The classifier parsing
(`src/milewatcher/analyzer.py`, `_parse_gemini_response`) is embedded over
Python strings represented as lists of characters.  The listing-page
extractor (`src/post_extractor/impl/passageiro_de_primeira.py`, and the
earlier revision in `src/scraper.py`) is embedded over a small HTML tree
mirroring the BeautifulSoup queries that the code performs.
-/

set_option autoImplicit false

namespace MileWatcher

/-- The four-value lifecycle enumeration `DatabaseManager.PostState`
(`database_manager.py`, lines 128-132); also the values admitted by the SQL
CHECK constraint on column `state`. -/
inductive PostState where
  | UNPROCESSED
  | RELEVANT
  | NOT_RELEVANT
  | ERROR
deriving DecidableEq, Repr

/-- One row of the `posts` table (schema created in
`_create_database_and_tables`): id INTEGER PRIMARY KEY AUTOINCREMENT,
source_id INTEGER NOT NULL, title TEXT NOT NULL, link TEXT UNIQUE NOT NULL,
extracted_at TIMESTAMP DEFAULT CURRENT_TIMESTAMP, processed_at TIMESTAMP
(nullable), state TEXT DEFAULT 'UNPROCESSED' NOT NULL. -/
structure PostRow where
  id : Nat
  source_id : Int
  title : String
  link : String
  extracted_at : String
  processed_at : Option String
  state : PostState
deriving DecidableEq, Repr

/-- The `posts` table state: the rows in rowid order plus the next
AUTOINCREMENT id.  (The `sources` table is not touched by any of the
operations verified here; SQLite does not enforce the FOREIGN KEY without a
pragma, so `source_id` is an uninterpreted integer.) -/
structure DB where
  posts : List PostRow
  next_post_id : Nat
deriving DecidableEq, Repr

/-- Whether a link is already present in the `posts` table; an INSERT of a
row with such a link violates the UNIQUE constraint on `link` and raises
`sqlite3.IntegrityError`. -/
def linkExists (db : DB) (link : String) : Bool :=
  db.posts.any (fun p => p.link == link)

/-- An item of the list passed to `insert_posts`: a dict with keys
`title` and `link`. -/
structure PostItem where
  title : String
  link : String
deriving DecidableEq, Repr

/-- The row built by `INSERT INTO posts (source_id, title, link) VALUES
(?, ?, ?)`: the remaining columns take their defaults (`extracted_at` =
CURRENT_TIMESTAMP, `processed_at` = NULL, `state` = 'UNPROCESSED'). -/
def freshRow (db : DB) (source_id : Int) (it : PostItem) (now : String) : PostRow :=
  { id := db.next_post_id
    source_id := source_id
    title := it.title
    link := it.link
    extracted_at := now
    processed_at := none
    state := PostState.UNPROCESSED }

/-- Embeds `DatabaseManager.insert_posts` (`database_manager.py`, lines 93-126):
the loop over `posts` tries each INSERT; a duplicate link raises
`sqlite3.IntegrityError`, which is caught and counted as skipped;
a successful INSERT increments `inserted_count`.  Returns the final table
state and the returned `inserted_count`.  `now` stands for
CURRENT_TIMESTAMP during the call. -/
def insert_posts (db : DB) (source_id : Int) (items : List PostItem) (now : String) :
    DB × Nat :=
  match items with
  | [] => (db, 0)
  | it :: rest =>
    if linkExists db it.link then
      -- sqlite3.IntegrityError: skipped_count += 1, row not inserted
      insert_posts db source_id rest now
    else
      let db' : DB :=
        { posts := db.posts ++ [freshRow db source_id it now]
          next_post_id := db.next_post_id + 1 }
      let r := insert_posts db' source_id rest now
      (r.1, r.2 + 1)

/-- Embeds `DatabaseManager.update_post_state` after the isinstance guard
(`database_manager.py`, lines 145-170): `UPDATE posts SET state = ?,
processed_at = ? WHERE id = ?`.  Returns the new table state and
`cursor.rowcount` (the warning "Post ID ... not found" is logged exactly
when the rowcount is 0). -/
def update_post_state (db : DB) (post_id : Nat) (state : PostState)
    (current_timestamp : String) : DB × Nat :=
  let updated := db.posts.map (fun p =>
    if p.id == post_id then
      { p with state := state, processed_at := some current_timestamp }
    else p)
  ({ db with posts := updated }, (db.posts.filter (fun p => p.id == post_id)).length)

/-- A Python value passed as the `state` argument of `update_post_state`:
either a member of the `PostState` enum, or any other runtime value (its
repr recorded as a string). -/
inductive PyArg where
  | stateArg (s : PostState)
  | nonState (r : String)
deriving DecidableEq, Repr

/-- Observable outcome of a call to `update_post_state`. -/
inductive UpdateOutcome where
  | invalidState
  | updatedRows (rowcount : Nat)
deriving DecidableEq, Repr

/-- Embeds `DatabaseManager.update_post_state` including the runtime guard at
lines 141-143: `if not isinstance(state, self.PostState): logger.error(...);
return` — a non-enum argument logs an error and returns before any store
operation. -/
def update_post_state_entry (db : DB) (post_id : Nat) (arg : PyArg)
    (current_timestamp : String) : DB × UpdateOutcome :=
  match arg with
  | PyArg.nonState _ => (db, UpdateOutcome.invalidState)
  | PyArg.stateArg s =>
    let r := update_post_state db post_id s current_timestamp
    (r.1, UpdateOutcome.updatedRows r.2)

/-- Embeds `DatabaseManager.get_posts_for_content_processing`
(`database_manager.py`, lines 172-211): `SELECT id, link FROM posts WHERE
state IS 'UNPROCESSED'`, plus `AND source_id = ?` when a source filter is
given, plus `LIMIT n` when `limit > 0` (default limit is -1).  Rows come
back in rowid order; each row yields the dict keys `id` and `link`. -/
def get_posts_for_content_processing (db : DB) (source_id : Option Int)
    (limit : Int) : List (Nat × String) :=
  let rows := db.posts.filter (fun p =>
    p.state == PostState.UNPROCESSED &&
      (match source_id with
       | some sid => p.source_id == sid
       | none => true))
  let rows := if limit > 0 then rows.take limit.toNat else rows
  rows.map (fun p => (p.id, p.link))

/-- The links currently stored in the `posts` table (the values the UNIQUE
constraint on `link` guards against). -/
def dbLinks (db : DB) : List String :=
  db.posts.map PostRow.link

/-- A concrete stored row used to evaluate the theorems on a concrete store. -/
def sampleRow : PostRow :=
  { id := 1
    source_id := 1
    title := "Old post"
    link := "https://example.com/old"
    extracted_at := "2025-06-01"
    processed_at := none
    state := PostState.RELEVANT }

/-- A concrete row in the UNPROCESSED state. -/
def pendingRow : PostRow :=
  { id := 3
    source_id := 1
    title := "Pending post"
    link := "https://example.com/pending"
    extracted_at := "2025-06-02"
    processed_at := none
    state := PostState.UNPROCESSED }

/-- A concrete store holding `sampleRow` only. -/
def sampleDB : DB :=
  { posts := [sampleRow], next_post_id := 2 }

/-- A concrete store holding one RELEVANT row and one UNPROCESSED row. -/
def sampleDB2 : DB :=
  { posts := [sampleRow, pendingRow], next_post_id := 4 }

/-- A concrete batch: one duplicate link and one fresh link. -/
def sampleItems : List PostItem :=
  [{ title := "Dup", link := "https://example.com/old" },
   { title := "New", link := "https://example.com/new" }]

/-- Python `s.strip()` on the ASCII whitespace relevant here: drop leading
and trailing whitespace characters. -/
def pyStrip (s : List Char) : List Char :=
  ((s.dropWhile Char.isWhitespace).reverse.dropWhile Char.isWhitespace).reverse

/-- Python `s.upper()` on the characters involved here. -/
def pyUpper (s : List Char) : List Char :=
  s.map Char.toUpper

/-- Python `line.split(":", 1)[1]`: everything after the first colon.  The
parser only applies this to lines that start with a marker containing a
colon, so the colon is always found. -/
def afterFirstColon (line : List Char) : List Char :=
  (line.dropWhile (fun c => c != ':')).drop 1

/-- The recognized boolean marker, `"Booleano:"`. -/
def booMarker : List Char :=
  ['B', 'o', 'o', 'l', 'e', 'a', 'n', 'o', ':']

/-- The recognized summary marker, `"Sumário:"`. -/
def sumMarker : List Char :=
  ['S', 'u', 'm', 'á', 'r', 'i', 'o', ':']

/-- One iteration of the `for line in lines` loop of
`MileagePromotionChecker._parse_gemini_response` (`analyzer.py`, lines
70-77, identical in the earlier revision `src/analyzer.py`, lines 56-62):
a line starting with `Booleano:` overwrites `is_promo` with whether the
remainder after the first colon, stripped and upper-cased, equals `TRUE`;
otherwise a line starting with `Sumário:` overwrites `summary` with the
stripped remainder; any other line leaves both unchanged. -/
def parseLine (acc : Bool × List Char) (line : List Char) : Bool × List Char :=
  if booMarker.isPrefixOf line then
    (pyUpper (pyStrip (afterFirstColon line)) == ['T', 'R', 'U', 'E'], acc.2)
  else if sumMarker.isPrefixOf line then
    (acc.1, pyStrip (afterFirstColon line))
  else
    acc

/-- Embeds `MileagePromotionChecker._parse_gemini_response` (`analyzer.py`, lines
55-78): split the raw response on newlines and scan the lines, starting
from the defaults `is_promo = False`, `summary = "N/A"`. -/
def parse_gemini_response (resp : List Char) : Bool × List Char :=
  (resp.splitOn '\n').foldl parseLine (false, "N/A".toList)

/-- The last line among `lines` that starts with `marker`, if any. -/
def lastLineWith (marker : List Char) (lines : List (List Char)) :
    Option (List Char) :=
  lines.reverse.find? (fun line => marker.isPrefixOf line)

/-- The boolean the parser reads off a `Booleano:` line. -/
def booValue (line : List Char) : Bool :=
  pyUpper (pyStrip (afterFirstColon line)) == ['T', 'R', 'U', 'E']

/-- The summary the parser reads off a `Sumário:` line. -/
def sumValue (line : List Char) : List Char :=
  pyStrip (afterFirstColon line)

/-- A fragment of parsed HTML as BeautifulSoup exposes it: element tags
with attributes and children, and text nodes. -/
inductive Html where
  | elem (tag : String) (attrs : List (String × String)) (children : List Html)
  | text (s : String)

/-- The attribute list of a node (text nodes have none). -/
def attrsOf : Html → List (String × String)
  | Html.elem _ attrs _ => attrs
  | Html.text _ => []

/-- BeautifulSoup `tag.get(name)`: the value of an attribute, if present. -/
def getAttr (attrs : List (String × String)) (name : String) : Option String :=
  (attrs.find? (fun kv => kv.1 == name)).map (fun kv => kv.2)

/-- BeautifulSoup `class_=c` matching: the `class` attribute is a
whitespace-separated token list containing `c`. -/
def hasClass (attrs : List (String × String)) (c : String) : Bool :=
  match getAttr attrs "class" with
  | some v => (v.toList.splitOn ' ').contains c.toList
  | none => false

mutual
/-- All descendant nodes of a node in document (pre-)order; BeautifulSoup
`find` and `find_all` search this sequence. -/
def descendants : Html → List Html
  | Html.text _ => []
  | Html.elem _ _ cs => descendantsList cs
/-- Recursion of `descendants` over a child list. -/
def descendantsList : List Html → List Html
  | [] => []
  | h :: t => h :: descendants h ++ descendantsList t
end

/-- BeautifulSoup `node.find(...)`: the first descendant satisfying the predicate. -/
def bsFind (p : Html → Bool) (root : Html) : Option Html :=
  (descendants root).find? p

/-- BeautifulSoup `node.find_all(...)`: every descendant satisfying the predicate, in
document order. -/
def bsFindAll (p : Html → Bool) (root : Html) : List Html :=
  (descendants root).filter p

mutual
/-- The strings of the text nodes of a subtree, in document order. -/
def textsOf : Html → List String
  | Html.text s => [s]
  | Html.elem _ _ cs => textsOfList cs
/-- Recursion of `textsOf` over a child list. -/
def textsOfList : List Html → List String
  | [] => []
  | h :: t => textsOf h ++ textsOfList t
end

/-- Python `s.strip()` over a Python string. -/
def stripStr (s : String) : String :=
  String.mk (pyStrip s.toList)

/-- Python `s.startswith(pre)`. -/
def startsWithStr (pre s : String) : Bool :=
  pre.toList.isPrefixOf s.toList

/-- BeautifulSoup `tag.get_text(strip=True)`: each string of the subtree stripped, the
results joined with the empty separator. -/
def getTextStrip (h : Html) : String :=
  String.join ((textsOf h).map stripStr)

/-- The container query `soup.find('div', {'data-term': 'promocoes'})`. -/
def isPromoDiv : Html → Bool
  | Html.elem tag attrs _ =>
    tag == "div" && getAttr attrs "data-term" == some "promocoes"
  | Html.text _ => false

/-- The heading query `find_all('h1', class_='article--title')`. -/
def isArticleTitle : Html → Bool
  | Html.elem tag attrs _ => tag == "h1" && hasClass attrs "article--title"
  | Html.text _ => false

/-- The hyperlink query `h1_tag.find('a', href=True)`. -/
def isLinkTag : Html → Bool
  | Html.elem tag attrs _ => tag == "a" && (getAttr attrs "href").isSome
  | Html.text _ => false

/-- The site origin prepended to relative links. -/
def base_url : String :=
  "https://passageirodeprimeira.com"

/-- The per-heading body of the extraction loop (identical in
`src/post_extractor/impl/passageiro_de_primeira.py`, lines 48-60, and
`src/scraper.py`, lines 99-110): take the heading's first hyperlink
carrying an href; `link` is its href, `title` its visible text; a link not
starting with `http://` or `https://` is prefixed with the site origin;
the entry is kept only when the title is non-blank. -/
def processH1 (h1 : Html) : Option PostItem :=
  match bsFind isLinkTag h1 with
  | none => none
  | some link_tag =>
    let link := (getAttr (attrsOf link_tag) "href").getD ""
    let title := getTextStrip link_tag
    let link :=
      if link != "" && !(startsWithStr "http://" link || startsWithStr "https://" link)
      then base_url ++ link else link
    if title != "" && stripStr title != "" then some { title := title, link := link }
    else none

/-- Embeds `PassageiroDePrimeiraPostExtractor.extract_posts`
(`src/post_extractor/impl/passageiro_de_primeira.py`, lines 21-64), after a
successful fetch of the listing page: when the promotions container is
absent, log an error and return the empty list; when it is present but has
no matching headings, the code calls `self.error.warning(...)` on the
non-existent attribute `error`, which raises AttributeError; otherwise
return the processed headings found inside the container. -/
def extract_posts (soup : Html) : Except String (List PostItem) :=
  match bsFind isPromoDiv soup with
  | none => Except.ok []
  | some promotions_section =>
    let h1_titles := bsFindAll isArticleTitle promotions_section
    if h1_titles.isEmpty then
      Except.error "AttributeError"
    else
      Except.ok (h1_titles.filterMap processH1)

/-- The earlier revision of the extractor (`src/scraper.py`, lines 73-112):
when the promotions container is absent it logs a warning and searches the
ENTIRE document; the loop body is the same.  (When no heading matches it
returns the empty list, which `filterMap` over the empty heading list also
yields.) -/
def extract_posts_v0 (soup : Html) : List PostItem :=
  let target_scope :=
    match bsFind isPromoDiv soup with
    | none => soup
    | some promotions_section => promotions_section
  (bsFindAll isArticleTitle target_scope).filterMap processH1

/-- A listing page without the promotions container but with an
`h1.article--title` heading elsewhere in the document. -/
def soupNoContainer : Html :=
  Html.elem "html" []
    [Html.elem "body" []
      [Html.elem "h1" [("class", "article--title")]
        [Html.elem "a" [("href", "/post-1")] [Html.text "Um post"]]]]

/-- The attributes (methods and the nested enum class) that class
`DatabaseManager` in `src/milewatcher/database/database_manager.py`
defines. -/
def databaseManagerAttrs : List String :=
  ["__init__", "_get_connection", "_create_database_and_tables",
   "get_or_create_source_id", "insert_posts", "PostState",
   "update_post_state", "get_posts_for_content_processing"]

/-- A Python exception, identified by its kind. -/
structure PyError where
  kind : String
deriving DecidableEq, Repr

/-- The call `self._db_manager.update_post_relevance_status(...)` made by
`MileWatcher.run_content_analysis_phase` (`src/milewatcher/milewatcher.py`,
lines 101 and 107): a Python attribute lookup on the `DatabaseManager`
instance.  The class defines no such attribute, so the lookup raises
AttributeError before any store operation. -/
def callUpdatePostRelevanceStatus (db : DB) : Except PyError DB :=
  if databaseManagerAttrs.contains "update_post_relevance_status" then
    Except.ok db
  else
    Except.error { kind := "AttributeError" }

/-- What `scraper.extract_post_content(post_url)` produced for one post:
either the returned text (the empty string when the content container was
missing or the page could not be fetched), or an exception that escaped the
call. -/
inductive FetchOutcome where
  | content (s : String)
  | raised
deriving DecidableEq, Repr

/-- The per-post body of `MileWatcher.run_content_analysis_phase`
(`src/milewatcher/milewatcher.py`, lines 84-107): fetch the post's content;
when it is non-empty, hard-code `is_content_relevant = False` (the marked
TODO placeholder), otherwise log an error and leave it None; then call
`update_post_relevance_status`; the per-post `except` handler reacts to any
exception by calling `update_post_relevance_status(post_id, False)` again.
Returns the store after the iteration and whether an exception escaped the
per-post handler into the per-source handler (which abandons the remaining
posts of that source).  The phase never calls `update_post_state`. -/
def analyze_post (db : DB) (fetched : FetchOutcome) : DB × Bool :=
  let inner : Except PyError DB :=
    match fetched with
    | FetchOutcome.raised => Except.error { kind := "ContentExtractionError" }
    | FetchOutcome.content extracted_content =>
      let _is_content_relevant : Option Bool :=
        if extracted_content != "" then some false else none
      callUpdatePostRelevanceStatus db
  match inner with
  | Except.ok db' => (db', false)
  | Except.error _ =>
    match callUpdatePostRelevanceStatus db with
    | Except.ok db' => (db', false)
    | Except.error _ => (db, true)

-- ===== DEFS-END =====

theorem linkExists_iff {db : DB} {l : String} :
    linkExists db l = true ↔ l ∈ dbLinks db := by
  simp [linkExists, dbLinks, List.any_eq_true, beq_iff_eq, List.mem_map]

theorem dbLinks_insert (db : DB) (source_id : Int) (it : PostItem) (now : String) :
    dbLinks { posts := db.posts ++ [freshRow db source_id it now]
              next_post_id := db.next_post_id + 1 } = dbLinks db ++ [it.link] := by
  simp [dbLinks, freshRow]

theorem linkExists_mono (db : DB) (source_id : Int) (it : PostItem) (now : String)
    (l : String) (h : linkExists db l = true) :
    linkExists { posts := db.posts ++ [freshRow db source_id it now]
                 next_post_id := db.next_post_id + 1 } l = true := by
  apply linkExists_iff.mpr
  rw [dbLinks_insert]
  exact List.mem_append_left _ (linkExists_iff.mp h)

theorem card_insert_sdiff {α : Type} [DecidableEq α] (S E : Finset α) (a : α)
    (ha : a ∉ E) : (insert a S \ E).card = (S \ insert a E).card + 1 := by
  have h1 : insert a S \ E = insert a (S \ insert a E) := by
    ext x
    by_cases hx : x = a <;> simp [hx, ha]
  rw [h1, Finset.card_insert_of_not_mem (by simp)]

theorem insert_posts_count (source_id : Int) (now : String) :
    ∀ (items : List PostItem) (db : DB),
      (insert_posts db source_id items now).2 =
        ((items.map PostItem.link).toFinset \ (dbLinks db).toFinset).card := by
  intro items
  induction items with
  | nil => intro db; simp [insert_posts]
  | cons it rest ih =>
    intro db
    by_cases h : linkExists db it.link = true
    · have hmem : it.link ∈ (dbLinks db).toFinset :=
        List.mem_toFinset.mpr (linkExists_iff.mp h)
      rw [insert_posts]
      simp only [h, if_true, ih db, List.map_cons, List.toFinset_cons,
        Finset.insert_sdiff_of_mem _ hmem]
    · have hb : linkExists db it.link = false := Bool.eq_false_iff.mpr h
      have hnot : it.link ∉ (dbLinks db).toFinset := fun hc =>
        h (linkExists_iff.mpr (List.mem_toFinset.mp hc))
      have hdb' := ih { posts := db.posts ++ [freshRow db source_id it now]
                        next_post_id := db.next_post_id + 1 }
      rw [dbLinks_insert] at hdb'
      have htf : (dbLinks db ++ [it.link]).toFinset
          = insert it.link (dbLinks db).toFinset := by
        simp [List.toFinset_append, Finset.union_comm, Finset.insert_eq]
      rw [htf] at hdb'
      rw [insert_posts]
      simp only [hb, Bool.false_eq_true, if_false, List.map_cons, List.toFinset_cons]
      rw [card_insert_sdiff _ _ _ hnot, hdb']

theorem insert_posts_rows (source_id : Int) (now : String) :
    ∀ (items : List PostItem) (db : DB),
      ∃ newRows : List PostRow,
        (insert_posts db source_id items now).1.posts = db.posts ++ newRows ∧
        (insert_posts db source_id items now).2 = newRows.length ∧
        ∀ r ∈ newRows,
          r.state = PostState.UNPROCESSED ∧ r.source_id = source_id ∧
          r.processed_at = none ∧ r.extracted_at = now ∧
          linkExists db r.link = false ∧ r.link ∈ items.map PostItem.link := by
  intro items
  induction items with
  | nil =>
    intro db
    exact ⟨[], by simp [insert_posts], by simp [insert_posts], by simp⟩
  | cons it rest ih =>
    intro db
    by_cases h : linkExists db it.link = true
    · obtain ⟨rows, h1, h2, h3⟩ := ih db
      refine ⟨rows, ?_, ?_, ?_⟩
      · rw [insert_posts]; simp only [h, if_true]; exact h1
      · rw [insert_posts]; simp only [h, if_true]; exact h2
      · intro r hr
        obtain ⟨s1, s2, s3, s4, s5, s6⟩ := h3 r hr
        exact ⟨s1, s2, s3, s4, s5, by
          simp only [List.map_cons]; exact List.mem_cons_of_mem _ s6⟩
    · have hb : linkExists db it.link = false := Bool.eq_false_iff.mpr h
      obtain ⟨rows, h1, h2, h3⟩ :=
        ih { posts := db.posts ++ [freshRow db source_id it now]
             next_post_id := db.next_post_id + 1 }
      refine ⟨freshRow db source_id it now :: rows, ?_, ?_, ?_⟩
      · rw [insert_posts]
        simp only [hb, Bool.false_eq_true, if_false]
        rw [h1]
        simp [List.append_assoc]
      · rw [insert_posts]
        simp only [hb, Bool.false_eq_true, if_false, List.length_cons]
        rw [h2]
      · intro r hr
        rcases List.mem_cons.mp hr with hr | hr
        · subst hr
          exact ⟨rfl, rfl, rfl, rfl, hb, by simp [freshRow]⟩
        · obtain ⟨s1, s2, s3, s4, s5, s6⟩ := h3 r hr
          refine ⟨s1, s2, s3, s4, ?_, by
            simp only [List.map_cons]; exact List.mem_cons_of_mem _ s6⟩
          refine Bool.eq_false_iff.mpr (fun hc => ?_)
          rw [linkExists_mono db source_id it now r.link hc] at s5
          exact Bool.true_eq_false.mp s5

theorem map_link_filter (L : String) (items : List PostItem) :
    (items.filter (fun it => it.link != L)).map PostItem.link
      = (items.map PostItem.link).filter (fun s => s != L) := by
  induction items with
  | nil => rfl
  | cons it rest ih =>
    by_cases h : it.link = L <;> simp [List.filter_cons, h, ih]

/-- C1: `insert_posts` inserts each item whose link is not already in the
store (nor inserted earlier in the batch) as a new UNPROCESSED post owned by
`source_id`, skips items whose link already exists without error, and
returns the number of rows actually inserted, which equals the number of
distinct links among the items that are not already present. -/
theorem insert_posts_spec (db : DB) (source_id : Int) (items : List PostItem)
    (now : String) :
    (insert_posts db source_id items now).2 =
      ((items.map PostItem.link).toFinset \ (dbLinks db).toFinset).card ∧
    ∃ newRows : List PostRow,
      (insert_posts db source_id items now).1.posts = db.posts ++ newRows ∧
      (insert_posts db source_id items now).2 = newRows.length ∧
      ∀ r ∈ newRows,
        r.state = PostState.UNPROCESSED ∧ r.source_id = source_id ∧
        r.processed_at = none ∧ r.extracted_at = now ∧
        linkExists db r.link = false ∧ r.link ∈ items.map PostItem.link :=
  ⟨insert_posts_count source_id now items db, insert_posts_rows source_id now items db⟩

/-- C2: when the store already holds a post with link `L`, an `insert_posts`
batch containing an item with link `L` leaves that row entirely unchanged
(it is still present with the same state, timestamps, title and source),
adds no new row with link `L`, grows the table only by the rows actually
inserted, and removing the duplicate items from the batch does not change
the inserted count — the duplicate contributes no row. -/
theorem insert_posts_duplicate_frame (db : DB) (source_id : Int)
    (items : List PostItem) (now : String) (p : PostRow) (L : String)
    (hp : p ∈ db.posts) (hpL : p.link = L) (_hL : L ∈ items.map PostItem.link) :
    p ∈ (insert_posts db source_id items now).1.posts ∧
    (∀ q ∈ (insert_posts db source_id items now).1.posts,
      q.link = L → q ∈ db.posts) ∧
    (insert_posts db source_id items now).1.posts.length
      = db.posts.length + (insert_posts db source_id items now).2 ∧
    (insert_posts db source_id (items.filter (fun it => it.link != L)) now).2
      = (insert_posts db source_id items now).2 := by
  obtain ⟨rows, h1, h2, h3⟩ := insert_posts_rows source_id now items db
  refine ⟨?_, ?_, ?_, ?_⟩
  · rw [h1]; exact List.mem_append_left _ hp
  · intro q hq hqL
    rw [h1] at hq
    rcases List.mem_append.mp hq with hq | hq
    · exact hq
    · obtain ⟨_, _, _, _, s5, _⟩ := h3 q hq
      have : linkExists db q.link = true :=
        linkExists_iff.mpr (hqL ▸ List.mem_map.mpr ⟨p, hp, hpL⟩)
      rw [s5] at this
      exact absurd this (Bool.false_ne_true)
  · rw [h1, h2]; simp
  · have hLE : L ∈ (dbLinks db).toFinset :=
      List.mem_toFinset.mpr (List.mem_map.mpr ⟨p, hp, hpL⟩)
    rw [insert_posts_count, insert_posts_count]
    congr 1
    rw [map_link_filter, List.toFinset_filter]
    ext x
    simp only [Finset.mem_sdiff, Finset.mem_filter, bne_iff_ne]
    constructor
    · rintro ⟨⟨hx1, _⟩, hx2⟩; exact ⟨hx1, hx2⟩
    · rintro ⟨hx1, hx2⟩; exact ⟨⟨hx1, fun he => hx2 (he ▸ hLE)⟩, hx2⟩

theorem insert_posts_duplicate_frame_witness :
    sampleRow ∈ (insert_posts sampleDB 1 sampleItems "ts").1.posts ∧
    (∀ q ∈ (insert_posts sampleDB 1 sampleItems "ts").1.posts,
      q.link = "https://example.com/old" → q ∈ sampleDB.posts) ∧
    (insert_posts sampleDB 1 sampleItems "ts").1.posts.length
      = sampleDB.posts.length + (insert_posts sampleDB 1 sampleItems "ts").2 ∧
    (insert_posts sampleDB 1
        (sampleItems.filter (fun it => it.link != "https://example.com/old")) "ts").2
      = (insert_posts sampleDB 1 sampleItems "ts").2 :=
  insert_posts_duplicate_frame sampleDB 1 sampleItems "ts" sampleRow
    "https://example.com/old" (by decide) (by decide) (by decide)

/-- C4: every row returned by `get_posts_for_content_processing` comes from
a stored post in state UNPROCESSED (never RELEVANT, NOT_RELEVANT or ERROR);
when a source filter is given every returned row belongs to that source, and
when the limit is positive at most `limit` rows are returned. -/
theorem get_posts_pending_spec (db : DB) (source_id : Option Int) (limit : Int) :
    (∀ r ∈ get_posts_for_content_processing db source_id limit,
      ∃ p, p ∈ db.posts ∧ p.id = r.1 ∧ p.link = r.2 ∧
        p.state = PostState.UNPROCESSED ∧
        ∀ sid, source_id = some sid → p.source_id = sid) ∧
    (0 < limit →
      ((get_posts_for_content_processing db source_id limit).length : Int) ≤ limit) := by
  constructor
  · intro r hr
    simp only [get_posts_for_content_processing] at hr
    rw [List.mem_map] at hr
    obtain ⟨p, hp, hpr⟩ := hr
    have hp' : p ∈ db.posts.filter (fun p =>
        p.state == PostState.UNPROCESSED &&
          (match source_id with
           | some sid => p.source_id == sid
           | none => true)) := by
      by_cases hl : limit > 0
      · rw [if_pos hl] at hp; exact List.take_subset _ _ hp
      · rw [if_neg hl] at hp; exact hp
    obtain ⟨hpost, hcond⟩ := List.mem_filter.mp hp'
    rw [Bool.and_eq_true] at hcond
    refine ⟨p, hpost, ?_, ?_, ?_, ?_⟩
    · rw [← hpr]
    · rw [← hpr]
    · exact beq_iff_eq.mp hcond.1
    · intro sid hsid
      subst hsid
      exact beq_iff_eq.mp hcond.2
  · intro hl
    simp only [get_posts_for_content_processing, if_pos hl, List.length_map]
    have hlen := List.length_take_le limit.toNat
      (db.posts.filter (fun p =>
        p.state == PostState.UNPROCESSED &&
          (match source_id with
           | some sid => p.source_id == sid
           | none => true)))
    omega

theorem get_posts_pending_spec_witness :
    (∃ p, p ∈ sampleDB2.posts ∧ p.id = 3 ∧ p.link = "https://example.com/pending" ∧
      p.state = PostState.UNPROCESSED ∧
      ∀ sid, (some (1 : Int) : Option Int) = some sid → p.source_id = sid) ∧
    ((get_posts_for_content_processing sampleDB2 (some 1) 1).length : Int) ≤ 1 :=
  ⟨(get_posts_pending_spec sampleDB2 (some 1) 1).1
      (3, "https://example.com/pending") (by decide),
   (get_posts_pending_spec sampleDB2 (some 1) 1).2 (by decide)⟩

/-- C5: after `update_post_state(id, S)` on an existing post id, reading any
post with that id gives state `S` and a non-null `processed_at` timestamp,
the updated version of the row is in the table, no other column of any row
changes, and the positive rowcount shows the debug (not warning) branch. -/
theorem update_post_state_read_back (db : DB) (post_id : Nat) (S : PostState)
    (ts : String) (p : PostRow) (hp : p ∈ db.posts) (hid : p.id = post_id) :
    ({ p with state := S, processed_at := some ts } : PostRow)
        ∈ (update_post_state db post_id S ts).1.posts ∧
    (∀ q ∈ (update_post_state db post_id S ts).1.posts,
      q.id = post_id → q.state = S ∧ q.processed_at = some ts) ∧
    (update_post_state db post_id S ts).1.posts.map
        (fun q => (q.id, q.source_id, q.title, q.link, q.extracted_at))
      = db.posts.map (fun q => (q.id, q.source_id, q.title, q.link, q.extracted_at)) ∧
    0 < (update_post_state db post_id S ts).2 := by
  simp only [update_post_state]
  refine ⟨?_, ?_, ?_, ?_⟩
  · have heq : ({ p with state := S, processed_at := some ts } : PostRow)
        = (fun q => if q.id == post_id then
            { q with state := S, processed_at := some ts } else q) p := by
      simp only [hid, beq_self_eq_true, if_true]
    rw [heq]
    exact List.mem_map_of_mem _ hp
  · intro q hq hqid
    rw [List.mem_map] at hq
    obtain ⟨p', hp', hq'⟩ := hq
    by_cases h' : p'.id == post_id
    · rw [if_pos h'] at hq'
      rw [← hq']
      exact ⟨rfl, rfl⟩
    · rw [if_neg h'] at hq'
      exact absurd (by rw [← hq'] at hqid; exact hqid) (by simpa using h')
  · rw [List.map_map]
    apply List.map_congr_left
    intro q _
    by_cases h' : q.id = post_id <;> simp [h']
  · have hmem : p ∈ db.posts.filter (fun q => q.id == post_id) :=
      List.mem_filter.mpr ⟨hp, by simp [hid]⟩
    exact List.length_pos.mpr (List.ne_nil_of_mem hmem)

theorem update_post_state_read_back_witness :
    ({ pendingRow with state := PostState.RELEVANT, processed_at := some "2025-06-03" } : PostRow)
        ∈ (update_post_state sampleDB2 3 PostState.RELEVANT "2025-06-03").1.posts ∧
    (∀ q ∈ (update_post_state sampleDB2 3 PostState.RELEVANT "2025-06-03").1.posts,
      q.id = 3 → q.state = PostState.RELEVANT ∧ q.processed_at = some "2025-06-03") ∧
    (update_post_state sampleDB2 3 PostState.RELEVANT "2025-06-03").1.posts.map
        (fun q => (q.id, q.source_id, q.title, q.link, q.extracted_at))
      = sampleDB2.posts.map (fun q => (q.id, q.source_id, q.title, q.link, q.extracted_at)) ∧
    0 < (update_post_state sampleDB2 3 PostState.RELEVANT "2025-06-03").2 :=
  update_post_state_read_back sampleDB2 3 PostState.RELEVANT "2025-06-03"
    pendingRow (by decide) (by decide)

/-- C6: `update_post_state` on an id not present in the store leaves the
store exactly as it was and returns rowcount 0, the condition under which
the code logs its "not found" warning instead of raising. -/
theorem update_post_state_missing (db : DB) (post_id : Nat) (S : PostState)
    (ts : String) (h : ∀ p ∈ db.posts, p.id ≠ post_id) :
    update_post_state db post_id S ts = (db, 0) := by
  obtain ⟨posts, nid⟩ := db
  simp only [update_post_state]
  have h1 : posts.map (fun q => if q.id == post_id then
      { q with state := S, processed_at := some ts } else q) = posts.map id := by
    apply List.map_congr_left
    intro q hq
    simp [h q hq]
  have h2 : posts.filter (fun q => q.id == post_id) = [] :=
    List.filter_eq_nil_iff.mpr (fun q hq => by simp [h q hq])
  rw [h1, List.map_id, h2]
  rfl

theorem update_post_state_missing_witness :
    update_post_state sampleDB2 7 PostState.ERROR "2025-06-03" = (sampleDB2, 0) :=
  update_post_state_missing sampleDB2 7 PostState.ERROR "2025-06-03" (by decide)

/-- C10: when the `state` argument of `update_post_state` is not a member of
the `PostState` enumeration, the isinstance guard returns before any store
operation: the store is unchanged and the observable outcome is the logged
invalid-state error, so the UPDATE branch is never reached. -/
theorem update_post_state_non_enum (db : DB) (post_id : Nat) (r : String)
    (ts : String) :
    update_post_state_entry db post_id (PyArg.nonState r) ts
      = (db, UpdateOutcome.invalidState) := rfl

theorem boo_not_sum (line : List Char) (h : booMarker.isPrefixOf line = true) :
    sumMarker.isPrefixOf line = false := by
  cases line with
  | nil => simp [booMarker, List.isPrefixOf] at h
  | cons c cs =>
    simp only [booMarker, sumMarker, List.isPrefixOf, Bool.and_eq_true,
      beq_iff_eq] at h ⊢
    obtain ⟨h1, _⟩ := h
    rw [← h1]
    simp

theorem lastLineWith_cons (m line : List Char) (rest : List (List Char)) :
    lastLineWith m (line :: rest)
      = (lastLineWith m rest).or
          (if m.isPrefixOf line then some line else none) := by
  simp only [lastLineWith, List.reverse_cons, List.find?_append]
  cases hp : m.isPrefixOf line <;> simp [List.find?, hp]

theorem foldl_parseLine (lines : List (List Char)) :
    ∀ acc : Bool × List Char,
      lines.foldl parseLine acc =
        ((lastLineWith booMarker lines).elim acc.1 booValue,
         (lastLineWith sumMarker lines).elim acc.2 sumValue) := by
  induction lines with
  | nil => intro acc; rfl
  | cons line rest ih =>
    intro acc
    rw [List.foldl_cons, ih, lastLineWith_cons, lastLineWith_cons]
    by_cases hb : booMarker.isPrefixOf line = true
    · have hs := boo_not_sum line hb
      have hstep : parseLine acc line = (booValue line, acc.2) := by
        simp [parseLine, hb, booValue]
      rw [hstep]
      cases hlb : lastLineWith booMarker rest <;>
        cases hls : lastLineWith sumMarker rest <;>
          simp [hb, hs, hlb, hls, Option.or]
    · have hb' : booMarker.isPrefixOf line = false := Bool.eq_false_iff.mpr hb
      by_cases hs : sumMarker.isPrefixOf line = true
      · have hstep : parseLine acc line = (acc.1, sumValue line) := by
          simp [parseLine, hb', hs, sumValue]
        rw [hstep]
        cases hlb : lastLineWith booMarker rest <;>
          cases hls : lastLineWith sumMarker rest <;>
            simp [hb', hs, hlb, hls, Option.or]
      · have hs' : sumMarker.isPrefixOf line = false := Bool.eq_false_iff.mpr hs
        have hstep : parseLine acc line = acc := by
          simp [parseLine, hb', hs']
        rw [hstep]
        cases hlb : lastLineWith booMarker rest <;>
          cases hls : lastLineWith sumMarker rest <;>
            simp [hb', hs', hlb, hls, Option.or]

theorem parse_gemini_response_eq (resp : List Char) :
    parse_gemini_response resp =
      ((lastLineWith booMarker (resp.splitOn '\n')).elim false booValue,
       (lastLineWith sumMarker (resp.splitOn '\n')).elim "N/A".toList sumValue) :=
  foldl_parseLine (resp.splitOn '\n') (false, "N/A".toList)

/-- C3 (amended): the parser returns `(true, S)` when the LAST
`Booleano:`-prefixed line has a remainder that strips and upper-cases to
`TRUE` and the LAST `Sumário:`-prefixed line has stripped remainder `S`
(earlier matching lines are overwritten, see the counterexample); lines
matching neither marker are ignored; with no `Booleano:` line the boolean
defaults to false, with no `Sumário:` line the summary defaults to `N/A`;
and the three concrete examples of the claim hold. -/
theorem parse_gemini_response_spec :
    (∀ resp lb ls, lastLineWith booMarker (resp.splitOn '\n') = some lb →
      booValue lb = true →
      lastLineWith sumMarker (resp.splitOn '\n') = some ls →
      parse_gemini_response resp = (true, sumValue ls)) ∧
    (∀ resp, lastLineWith booMarker (resp.splitOn '\n') = none →
      (parse_gemini_response resp).1 = false) ∧
    (∀ resp, lastLineWith sumMarker (resp.splitOn '\n') = none →
      (parse_gemini_response resp).2 = "N/A".toList) ∧
    parse_gemini_response "Booleano: TRUE\nSumário: 40% bonus, valid June 2025".toList
      = (true, "40% bonus, valid June 2025".toList) ∧
    parse_gemini_response "Booleano: FALSE\nSumário: N/A".toList
      = (false, "N/A".toList) ∧
    parse_gemini_response "Uma resposta sem linhas reconhecidas.".toList
      = (false, "N/A".toList) := by
  refine ⟨?_, ?_, ?_, by decide, by decide, by decide⟩
  · intro resp lb ls h1 h2 h3
    rw [parse_gemini_response_eq, h1, h3]
    simp [Option.elim, h2]
  · intro resp h1
    rw [parse_gemini_response_eq, h1]
    rfl
  · intro resp h1
    rw [parse_gemini_response_eq, h1]
    rfl

theorem parse_gemini_response_spec_witness :
    parse_gemini_response "Booleano: TRUE\nSumário: ok".toList
      = (true, sumValue "Sumário: ok".toList) :=
  parse_gemini_response_spec.1 "Booleano: TRUE\nSumário: ok".toList
    "Booleano: TRUE".toList "Sumário: ok".toList (by decide) (by decide) (by decide)

/-- C3 as literally stated is false on the code: the response
`"Booleano: TRUE\nBooleano: FALSE\nSumário: X"` contains a line starting
with `Booleano:` whose remainder, stripped and upper-cased, equals `TRUE`,
and a line starting with `Sumário:` with stripped remainder `X`, yet the
parser returns `(false, "X")`, not `(true, "X")`: a later `Booleano:` line
overwrites the earlier one. -/
theorem parse_gemini_response_claim_counterexample :
    "Booleano: TRUE".toList
        ∈ ("Booleano: TRUE\nBooleano: FALSE\nSumário: X".toList.splitOn '\n') ∧
    booMarker.isPrefixOf "Booleano: TRUE".toList = true ∧
    pyUpper (pyStrip (afterFirstColon "Booleano: TRUE".toList)) = "TRUE".toList ∧
    "Sumário: X".toList
        ∈ ("Booleano: TRUE\nBooleano: FALSE\nSumário: X".toList.splitOn '\n') ∧
    sumMarker.isPrefixOf "Sumário: X".toList = true ∧
    pyStrip (afterFirstColon "Sumário: X".toList) = "X".toList ∧
    parse_gemini_response "Booleano: TRUE\nBooleano: FALSE\nSumário: X".toList
      = (false, "X".toList) := by
  decide

/-- C9: when a recognized marker occurs on more than one line, the parser
returns the value taken from the last such line for that marker; earlier
matching lines are overwritten. -/
theorem parse_gemini_response_last_wins (resp : List Char) :
    (∀ lb, 2 ≤ (resp.splitOn '\n').countP (fun l => booMarker.isPrefixOf l) →
      lastLineWith booMarker (resp.splitOn '\n') = some lb →
      (parse_gemini_response resp).1 = booValue lb) ∧
    (∀ ls, 2 ≤ (resp.splitOn '\n').countP (fun l => sumMarker.isPrefixOf l) →
      lastLineWith sumMarker (resp.splitOn '\n') = some ls →
      (parse_gemini_response resp).2 = sumValue ls) := by
  constructor
  · intro lb _ hlast
    rw [parse_gemini_response_eq, hlast]
    rfl
  · intro ls _ hlast
    rw [parse_gemini_response_eq, hlast]
    rfl

theorem parse_gemini_response_last_wins_witness :
    (parse_gemini_response
        "Booleano: FALSE\nBooleano: TRUE\nSumário: primeiro\nSumário: segundo".toList).1
      = booValue "Booleano: TRUE".toList ∧
    (parse_gemini_response
        "Booleano: FALSE\nBooleano: TRUE\nSumário: primeiro\nSumário: segundo".toList).2
      = sumValue "Sumário: segundo".toList :=
  ⟨(parse_gemini_response_last_wins
      "Booleano: FALSE\nBooleano: TRUE\nSumário: primeiro\nSumário: segundo".toList).1
      "Booleano: TRUE".toList (by decide) (by decide),
   (parse_gemini_response_last_wins
      "Booleano: FALSE\nBooleano: TRUE\nSumário: primeiro\nSumário: segundo".toList).2
      "Sumário: segundo".toList (by decide) (by decide)⟩

theorem insert_posts_spec_witness :
    (insert_posts sampleDB 1 sampleItems "ts").2 =
      ((sampleItems.map PostItem.link).toFinset \ (dbLinks sampleDB).toFinset).card :=
  (insert_posts_spec sampleDB 1 sampleItems "ts").1

theorem update_post_state_non_enum_witness :
    update_post_state_entry sampleDB2 3 (PyArg.nonState "RELEVANT") "ts"
      = (sampleDB2, UpdateOutcome.invalidState) :=
  update_post_state_non_enum sampleDB2 3 "RELEVANT" "ts"

/-- C7 (evidence for the code bug): on every path of the analysis phase's
per-post body — content fetched, content empty, or an exception from the
fetch — the store is unchanged and an AttributeError escapes the per-post
handler, because the phase calls the non-existent
`DatabaseManager.update_post_relevance_status` (and its own error path
even intends to mark the post not relevant, not ERROR).  Hence a post that
was UNPROCESSED before a fetch or classification failure is still
UNPROCESSED afterwards — the code never performs the
UNPROCESSED-to-ERROR transition the claim describes. -/
theorem analyze_post_no_error_transition (db : DB) (fetched : FetchOutcome) :
    (analyze_post db fetched).1 = db ∧ (analyze_post db fetched).2 = true ∧
    ∀ p ∈ db.posts, p.state = PostState.UNPROCESSED →
      ∃ q ∈ (analyze_post db fetched).1.posts,
        q.id = p.id ∧ q.state = PostState.UNPROCESSED ∧
        q.state ≠ PostState.ERROR := by
  have hcall : ∀ d : DB, callUpdatePostRelevanceStatus d
      = Except.error { kind := "AttributeError" } := fun d => rfl
  have h1 : (analyze_post db fetched).1 = db ∧ (analyze_post db fetched).2 = true := by
    cases fetched <;> simp [analyze_post, hcall]
  refine ⟨h1.1, h1.2, ?_⟩
  intro p hp hstate
  refine ⟨p, by rw [h1.1]; exact hp, rfl, hstate, ?_⟩
  rw [hstate]
  decide

theorem analyze_post_no_error_transition_witness :
    (analyze_post sampleDB2 FetchOutcome.raised).1 = sampleDB2 ∧
    (analyze_post sampleDB2 FetchOutcome.raised).2 = true :=
  ⟨(analyze_post_no_error_transition sampleDB2 FetchOutcome.raised).1,
   (analyze_post_no_error_transition sampleDB2 FetchOutcome.raised).2.1⟩

/-- C8 (amended): for the current extractor
(`src/post_extractor/impl/passageiro_de_primeira.py`), a listing page whose
promotions container (the div with data-term="promocoes") is absent yields
an empty sequence with no exception — in particular no entries scraped from
outside the container; the error is logged.  (The earlier revision in
`src/scraper.py` instead falls back to scanning the entire document; see
the counterexample.) -/
theorem extract_posts_no_container (soup : Html)
    (h : bsFind isPromoDiv soup = none) :
    extract_posts soup = Except.ok [] := by
  simp [extract_posts, h]

theorem extract_posts_no_container_witness :
    extract_posts soupNoContainer = Except.ok [] :=
  extract_posts_no_container soupNoContainer rfl

/-- C8 as stated fails for the cited revision in `src/scraper.py`: on a
page with no promotions container but with an `h1.article--title` heading
elsewhere, that extractor returns the heading's entry — scraped from
outside the (absent) container — rather than an empty sequence. -/
theorem extract_posts_v0_counterexample :
    bsFind isPromoDiv soupNoContainer = none ∧
    extract_posts_v0 soupNoContainer
      = [{ title := "Um post", link := "https://passageirodeprimeira.com/post-1" }] :=
  ⟨rfl, by decide⟩

end MileWatcher
